import Mathlib

/-!
Verification of the Chevening-Courses single-page application.

The repository is a TypeScript browser app (`src/index.tsx`, plus an earlier
near-duplicate variant) that collects a CV file and a few text fields, sends
them to an external generative-model service, and renders the parsed JSON
response as HTML cards.  This file gives a shallow embedding of the parts of
the program that the verified properties are about:

* the Result Renderer (`renderResults` and its per-section fragment
  generators), embedded as functions producing the HTML strings the source
  assembles by template-literal concatenation (whitespace inside template
  literals is normalised; all visible text, tags, classes and attribute
  values are kept verbatim).  One caveat: the committed `renderAlternatives`
  is a syntax error — its per-entry template literal is unterminated — so
  the module as committed does not parse; its embedding here is marked
  "Modelled from the spec" and follows the intended template, which the
  well-formed older variant contains verbatim (see `altCard`);
* the File Encoder (`fileToGenerativePart`), with the browser FileReader
  outcome made explicit, and a base64 codec;
* the deadline countdown (`setDeadline` / its interval callback), as a step
  function on an explicit timer state;
* the UI State Controller and the form submit listener, embedded as a state
  transformer over an explicit DOM-state record together with a trace of the
  effects the listener performs (showError / showLoading / model call /
  results render).

JavaScript features are modelled explicitly: `undefined` fields are `Option`,
string interpolation of a possibly-undefined value renders the text
"undefined", JS truthiness of strings treats the empty string as false,
and a thrown `TypeError` (e.g. calling `.map` or `.toLowerCase` on an absent
field) makes the embedded renderer return `none`.
-/

namespace Chevening



/-! ### Generic string and list helpers -/

/-- Concatenation of a list of strings; model of JavaScript `array.join('')`. -/
def concatAll : List String → String
  | [] => ""
  | s :: rest => s ++ concatAll rest

/-- A substring occurrence: `pat` occurs inside `s` exactly when `pat.data`
is an infix of `s.data`.  This is the formal reading of "the rendered
fragment contains ⟨text⟩". -/
def strOccurs (s pat : String) : Prop := pat.data <:+: s.data

instance (s pat : String) : Decidable (strOccurs s pat) := by
  unfold strOccurs; infer_instance

/-- Index of the first occurrence of a character in a character list. -/
def idxOfC (c : Char) : List Char → Nat
  | [] => 0
  | a :: l => if a = c then 0 else idxOfC c l + 1

/-! ### Base64 codec

The source encodes the uploaded file with `FileReader.readAsDataURL`, which
produces `data:<mime>;base64,<base64 of the file bytes>`.  The encoder below
is the standard base64 encoding of a byte list (bytes are `Nat`s below 256),
used to model the data URL the browser hands back. -/

def b64AlphabetChars : List Char :=
  "ABCDEFGHIJKLMNOPQRSTUVWXYZabcdefghijklmnopqrstuvwxyz0123456789+/".data

def b64EncodeSextet (n : Nat) : Char := b64AlphabetChars.getD n '?'

def b64DecodeSextet (c : Char) : Option Nat := b64AlphabetChars.findIdx? (fun a => a = c)

def b64EncodeChars : List Nat → List Char
  | [] => []
  | [a] => [b64EncodeSextet (a / 4), b64EncodeSextet (a % 4 * 16), '=', '=']
  | [a, b] => [b64EncodeSextet (a / 4), b64EncodeSextet (a % 4 * 16 + b / 16),
      b64EncodeSextet (b % 16 * 4), '=']
  | a :: b :: c :: rest =>
      b64EncodeSextet (a / 4) :: b64EncodeSextet (a % 4 * 16 + b / 16) ::
      b64EncodeSextet (b % 16 * 4 + c / 64) :: b64EncodeSextet (c % 64) ::
      b64EncodeChars rest

def b64DecodeChars : List Char → Option (List Nat)
  | [] => some []
  | w :: x :: y :: z :: rest =>
      match b64DecodeSextet w, b64DecodeSextet x with
      | some s1, some s2 =>
          if y = '=' then
            if z = '=' ∧ rest = [] then some [s1 * 4 + s2 / 16] else none
          else
            match b64DecodeSextet y with
            | some s3 =>
                if z = '=' then
                  if rest = [] then some [s1 * 4 + s2 / 16, s2 % 16 * 16 + s3 / 4]
                  else none
                else
                  match b64DecodeSextet z, b64DecodeChars rest with
                  | some s4, some tail =>
                      some ((s1 * 4 + s2 / 16) :: (s2 % 16 * 16 + s3 / 4) ::
                            (s3 % 4 * 64 + s4) :: tail)
                  | _, _ => none
            | none => none
      | _, _ => none
  | _ => none

/-! ### Splitting on commas

Model of JavaScript `string.split(',')`: the list of maximal comma-free
segments.  The source strips the data-URL prefix with `dataUrl.split(',')[1]`. -/

def splitOnComma : List Char → List (List Char)
  | [] => [[]]
  | c :: rest =>
      let s := splitOnComma rest
      if c = ',' then [] :: s else (c :: s.headD []) :: s.tail

/-! ### Data model

The parsed response (`ResultDocument`) as described by the response schema in
`src/index.tsx`.  Every field can be absent in the model-produced JSON, so
every field is an `Option`. -/

structure EligibilityCheck where
  is_eligible : Option Bool
  reason : Option String
deriving DecidableEq

structure CourseEntry where
  rank : Option Int
  university : Option String
  programme : Option String
  city : Option String
  url : Option String
  start_cycle : Option String
  duration_months : Option Int
  fee_gbp : Option String
  chevening_rationale : Option (List String)
  eligibility_check : Option EligibilityCheck
  score_breakdown : Option String
deriving DecidableEq

structure TrioEntry where
  university : Option String
  programme : Option String
  why_this_trio : Option String
deriving DecidableEq

structure AlternativeEntry where
  university : Option String
  programme : Option String
  url : Option String
  why_consider : Option String
deriving DecidableEq

structure Bullets where
  leadership : Option (List String)
  networking : Option (List String)
  career_plan : Option (List String)
deriving DecidableEq

structure Profile where
  strengths : Option (List String)
  gaps : Option (List String)
deriving DecidableEq

structure ResultDocument where
  profile : Option Profile
  ranked_courses : Option (List CourseEntry)
  chevening_trio : Option (List TrioEntry)
  personal_statement_bullets : Option Bullets
  alternatives : Option (List AlternativeEntry)
  notes : Option (List String)
deriving DecidableEq

/-! ### JavaScript value helpers -/

/-- JS template interpolation of a possibly-undefined string renders the text
"undefined" when the value is absent. -/
def jsStr : Option String → String
  | some s => s
  | none => "undefined"

/-- JS template interpolation of a possibly-undefined integer. -/
def jsInt : Option Int → String
  | some n => toString n
  | none => "undefined"

/-- JS truthiness of a string value: `undefined` and the empty string are
falsy, all other strings truthy. -/
def jsTruthyStr : Option String → Bool
  | some s => !s.isEmpty
  | none => false

/-- JS truthiness of a possibly-undefined boolean: `undefined` is falsy. -/
def jsTruthyBool : Option Bool → Bool
  | some b => b
  | none => false

/-- Model of JS `string.includes(pat)`. -/
def jsIncludes (s pat : String) : Bool := decide (pat.data <:+: s.data)

/-- Model of JS `string.toLowerCase()` (character-wise lowering). -/
def jsToLower (s : String) : String := String.mk (s.data.map Char.toLower)

/-! ### Result Renderer (src/index.tsx, lines 219-375)

Each fragment generator returns the HTML string assembled by the source's
template literal, with template whitespace normalised to single spaces.
A generator that would throw a `TypeError` in JS (accessing `.map` or
`.toLowerCase` of an absent field) returns `none`. -/

def liItem (s : String) : String := "<li>" ++ s ++ "</li>"

/-- `renderProfileAnalysis` (lines 242-259): explicitly guarded, returns the
empty string when `strengths` or `gaps` is absent. -/
def profHd : String :=
  "<div id=\"profile-analysis-section\" class=\"result-category\"> <h2>CV Analysis vs. Chevening Criteria</h2> <div class=\"profile-columns\"> <div class=\"profile-column\"> <h3>Strengths</h3> <ul>"

def profMid : String :=
  "</ul> </div> <div class=\"profile-column\"> <h3>Potential Gaps</h3> <ul>"

def profTl : String := "</ul> </div> </div> </div>"

def renderProfileAnalysis (profile : Profile) : String :=
  match profile.strengths, profile.gaps with
  | some strengths, some gaps =>
      profHd ++ concatAll (strengths.map liItem) ++ profMid
      ++ concatAll (gaps.map liItem) ++ profTl
  | _, _ => ""

/-- The fixed MBA fee-cap advisory appended to MBA programmes. -/
def mbaFeeCapWarning : String :=
  "<p class=\"mba-warning\"><strong>MBA Fee Cap:</strong> Chevening caps MBA tuition at £22,000. You must fund any difference.</p>"

/-- The fixed diversification advisory for single-university trios. -/
def trioDiversifyWarning : String :=
  "<p class=\"trio-warning\"><strong>Note:</strong> All three choices are from the same university. This is permitted, but Chevening often recommends diversifying your choices to spread risk.</p>"

/-- The `universities.size === 1 && trio.length > 1` conditional from
`renderTrio` (lines 262-264); the JS `Set` of university values is modelled
by `dedup` of the mapped list. -/
def singleUniversityWarning (trio : List TrioEntry) : String :=
  if (trio.map (fun course => course.university)).dedup.length = 1 ∧ 1 < trio.length
  then trioDiversifyWarning else ""

/-- One card of the trio section (the callback of `trio.map` in lines
270-281); `course.programme.toLowerCase()` throws when `programme` is
absent. -/
def trioCard (course : TrioEntry) : Option String :=
  match course.programme with
  | none => none
  | some programme =>
      some (concatAll ["<div class=\"trio-card\"> <h3>", programme,
        "</h3> <p class=\"university\">", jsStr course.university,
        "</p> <p>", jsStr course.why_this_trio, "</p> ",
        if jsIncludes (jsToLower programme) "mba" then mbaFeeCapWarning else "",
        " </div>"])

/-- JS `list.map(f)` where the callback may throw: the first throwing entry
aborts the whole map. -/
def renderCards {α : Type} (f : α → Option String) : List α → Option (List String)
  | [] => some []
  | c :: cs =>
      match f c, renderCards f cs with
      | some s, some rest => some (s :: rest)
      | _, _ => none

def trioHd : String :=
  "<div class=\"result-category\"> <h2>Your Recommended Chevening Trio</h2> "

def trioTl : String := " </div>"

/-- `renderTrio` (lines 261-284). -/
def renderTrio (trio : List TrioEntry) : Option String :=
  match renderCards trioCard trio with
  | some cards =>
      some (trioHd ++ singleUniversityWarning trio ++ " " ++ concatAll cards ++ trioTl)
  | none => none

/-- `eligibility_check ? (eligibility_check.is_eligible ? ... : ...) : ''`. -/
def eligibilityBadge (ec : Option EligibilityCheck) : String :=
  match ec with
  | none => ""
  | some e =>
      if jsTruthyBool e.is_eligible then
        "<span class=\"eligibility-badge\">Chevening-eligible ✅</span>"
      else "<span class=\"eligibility-badge ineligible\">Ineligible ❌</span>"

/-- `eligibility_check && !eligibility_check.is_eligible ? ... : ''`. -/
def eligibilityReason (ec : Option EligibilityCheck) : String :=
  match ec with
  | none => ""
  | some e =>
      if jsTruthyBool e.is_eligible then ""
      else "<p class=\"ineligible-reason\">" ++ jsStr e.reason ++ "</p>"

/-- `fee_gbp && fee_gbp.toLowerCase().includes('verify') ? ... : 💷 ${fee_gbp || 'N/A'}`.
When the fee is falsy, JS short-circuits before `toLowerCase`; the `jsStr`
argument below is then irrelevant because the conjunction is already false. -/
def feeDisplay (fee : Option String) : String :=
  if jsTruthyStr fee && jsIncludes (jsToLower (jsStr fee)) "verify" then
    "<span class=\"verify-chip\">" ++ jsStr fee ++ "</span>"
  else "💷 " ++ (if jsTruthyStr fee then jsStr fee else "N/A")

/-- `${score_breakdown ? `<details ...>` : ''}`. -/
def scoreBlock (sb : Option String) : String :=
  if jsTruthyStr sb then
    "<details class=\"score-breakdown\"> <summary>Why this rank?</summary> <p>"
    ++ jsStr sb ++ "</p> </details>"
  else ""

/-- One card of the ranked-courses section (the callback of `courses.map` in
lines 290-332); `programme.toLowerCase()` and `chevening_rationale.map`
throw when the respective field is absent. -/
def rankedCard (course : CourseEntry) : Option String :=
  match course.programme, course.chevening_rationale with
  | some programme, some rationale =>
      some (concatAll ["<div class=\"course-card\"> <h3>", jsInt course.rank, ". ",
        programme, "</h3> <p class=\"university\">", jsStr course.university, "</p> ",
        eligibilityBadge course.eligibility_check, " ",
        eligibilityReason course.eligibility_check, " ",
        (if jsIncludes (jsToLower programme) "mba" then mbaFeeCapWarning else ""),
        " <div class=\"details\"> <span>📍 ", jsStr course.city,
        "</span> <span>🗓️ ", jsStr course.start_cycle,
        "</span> <span>⏳ ", jsInt course.duration_months,
        " months</span> <span>", feeDisplay course.fee_gbp,
        "</span> </div> ", scoreBlock course.score_breakdown,
        " <div class=\"chevening-rationale\"> <strong>Chevening Rationale:</strong> <ul> ",
        concatAll (rationale.map liItem),
        " </ul> </div> <p><a href=\"", jsStr course.url,
        "\" target=\"_blank\" rel=\"noopener noreferrer\">Visit course page →</a></p> </div>"])
  | _, _ => none

def rankedHd : String :=
  "<div class=\"result-category\"> <h2>Top Ranked Courses</h2> "

def rankedTl : String := " </div>"

/-- `renderRankedCourses` (lines 286-335). -/
def renderRankedCourses (courses : List CourseEntry) : Option String :=
  match renderCards rankedCard courses with
  | some cards => some (rankedHd ++ concatAll cards ++ rankedTl)
  | none => none

/-- `renderBullets` (lines 337-349): `bullets.leadership.map` (and the two
others) throw when the list is absent — there is no guard. -/
def bulHd : String :=
  "<div class=\"result-category personal-statement-bullets\"> <h2>Personal Statement Talking Points</h2> <h4>Leadership</h4> <ul>"

def bulMid1 : String := "</ul> <h4>Networking</h4> <ul>"

def bulMid2 : String := "</ul> <h4>Career Plan</h4> <ul>"

def bulTl : String := "</ul> </div>"

def renderBullets (bullets : Bullets) : Option String :=
  match bullets.leadership, bullets.networking, bullets.career_plan with
  | some leadership, some networking, some career_plan =>
      some (bulHd ++ concatAll (leadership.map liItem) ++ bulMid1
        ++ concatAll (networking.map liItem) ++ bulMid2
        ++ concatAll (career_plan.map liItem) ++ bulTl)
  | _, _, _ => none

/-- Modelled from the spec: the committed `renderAlternatives`
(src/index.tsx lines 351-365) does not parse.  The per-entry template
literal opened at the end of line 355 is never terminated: line 362 reads
the two characters close-brace close-paren followed by .join('') with no
closing backtick before the close-paren (the well-formed older variant,
src/unnamed/part_000 line 329, has that backtick).  The inner template
therefore swallows the following lines and the module raises a SyntaxError
at load time, so the committed function has no behaviour at all.  The card
below is the evidently intended per-entry template — the spec's
alternatives entry (university, programme, url, why-consider), identical
to the older variant's well-formed template.  Pure interpolation: an
absent field renders as the text "undefined". -/
def altCard (alt : AlternativeEntry) : String :=
  concatAll ["<div class=\"course-card\"> <h3>", jsStr alt.programme,
    "</h3> <p class=\"university\">", jsStr alt.university,
    "</p> <p>", jsStr alt.why_consider,
    "</p> <p><a href=\"", jsStr alt.url,
    "\" target=\"_blank\" rel=\"noopener noreferrer\">Visit course page →</a></p> </div>"]

def altHd : String :=
  "<div class=\"result-category\"> <h2>Alternative Options</h2> "

def altTl : String := " </div>"

/-- Modelled from the spec: the intended `renderAlternatives`
(lines 351-365); the committed source of this function is a syntax error —
see `altCard` — so this definition follows the spec's alternatives section
and the older variant's well-formed function body. -/
def renderAlternatives (alternatives : List AlternativeEntry) : String :=
  altHd ++ concatAll (alternatives.map altCard) ++ altTl

def notesHd : String :=
  "<div class=\"result-category\"> <h2>Important Notes</h2> <ul> "

def notesTl : String := " </ul> </div>"

/-- `renderNotes` (lines 366-375). -/
def renderNotes (notes : List String) : String :=
  notesHd ++ concatAll (notes.map liItem) ++ notesTl

/-- The `if (data.x) innerHTML += ...` guard of `renderResults` for a
fragment generator that can throw: an absent section contributes the empty
string, a present one its generator's outcome. -/
def sectionOpt {α : Type} (o : Option α) (g : α → Option String) : Option String :=
  match o with
  | some x => g x
  | none => some ""

/-- The same guard for a total fragment generator. -/
def sectionStr {α : Type} (o : Option α) (g : α → String) : String :=
  match o with
  | some x => g x
  | none => ""

/-- `renderResults` (lines 219-240): starts from an empty results area and
appends one fragment per present section, in the fixed order profile, trio,
ranked courses, personal-statement bullets, alternatives, notes.  A throwing
fragment generator propagates (the exception aborts `renderResults`). -/
def renderResults (data : ResultDocument) : Option String :=
  (sectionOpt data.chevening_trio renderTrio).bind fun pTrio =>
  (sectionOpt data.ranked_courses renderRankedCourses).bind fun pCourses =>
  (sectionOpt data.personal_statement_bullets renderBullets).bind fun pBullets =>
  some (sectionStr data.profile renderProfileAnalysis
    ++ pTrio ++ pCourses ++ pBullets
    ++ sectionStr data.alternatives renderAlternatives
    ++ sectionStr data.notes renderNotes)

/-! ### Spec-shaped view of the rendered output

`sectionFragments` follows the specification's wording: one top-level block
per *present* section, in the fixed order; an absent section contributes no
block at all.  The refinement theorem for C1 connects it to `renderResults`. -/

def sectionFragments (d : ResultDocument) : List String :=
  (d.profile.map renderProfileAnalysis).toList ++
  (d.chevening_trio.map (fun t => (renderTrio t).getD "")).toList ++
  (d.ranked_courses.map (fun cs => (renderRankedCourses cs).getD "")).toList ++
  (d.personal_statement_bullets.map (fun b => (renderBullets b).getD "")).toList ++
  (d.alternatives.map renderAlternatives).toList ++
  (d.notes.map renderNotes).toList

def countPresent (d : ResultDocument) : Nat :=
  (if d.profile.isSome then 1 else 0) +
  (if d.chevening_trio.isSome then 1 else 0) +
  (if d.ranked_courses.isSome then 1 else 0) +
  (if d.personal_statement_bullets.isSome then 1 else 0) +
  (if d.alternatives.isSome then 1 else 0) +
  (if d.notes.isSome then 1 else 0)

def allPresent (d : ResultDocument) : Bool :=
  d.profile.isSome && d.chevening_trio.isSome && d.ranked_courses.isSome &&
  d.personal_statement_bullets.isSome && d.alternatives.isSome && d.notes.isSome

/-- Well-formedness of a document: each present section carries the
sub-fields its fragment generator dereferences. -/
def trioEntryWF (e : TrioEntry) : Bool := e.programme.isSome

def courseWF (c : CourseEntry) : Bool :=
  c.programme.isSome && c.chevening_rationale.isSome

def bulletsWF (b : Bullets) : Bool :=
  b.leadership.isSome && b.networking.isSome && b.career_plan.isSome

def profileWF (p : Profile) : Bool := p.strengths.isSome && p.gaps.isSome

def wellFormedDoc (d : ResultDocument) : Bool :=
  (match d.profile with | some p => profileWF p | none => true) &&
  (match d.chevening_trio with | some t => t.all trioEntryWF | none => true) &&
  (match d.ranked_courses with | some cs => cs.all courseWF | none => true) &&
  (match d.personal_statement_bullets with | some b => bulletsWF b | none => true)

/-! ### File Encoder (src/index.tsx, lines 170-186)

`fileToGenerativePart` wraps a `FileReader`: it registers an `onloadend`
listener that resolves the promise with `dataUrl.split(',')[1]`, and starts
`readAsDataURL`.  The promise executor passes only `resolve` — there is no
`reject` and no `onerror` handler.  When the read fails the browser still
fires `loadend`, but `reader.result` is `null`, so `dataUrl.split` throws a
`TypeError` *inside the event listener*; the promise is never resolved nor
rejected and stays pending forever.  The `ReadResult` argument makes the
FileReader outcome explicit. -/

structure FileData where
  bytes : List Nat
  mime : String
deriving DecidableEq

inductive ReadResult
  | success
  | failure
deriving DecidableEq

/-- Outcome of a JS promise as observed by an `await`er. -/
inductive JsPromise (α : Type)
  | resolved (a : α)
  | rejected (msg : String)
  | pending
deriving DecidableEq

structure EncodedFile where
  data : String
  mimeType : String
deriving DecidableEq

/-- The data URL produced by `FileReader.readAsDataURL` on a successful
read: `data:<mime>;base64,<base64 bytes>` (browser behaviour, modelled). -/
def readAsDataURL (f : FileData) : String :=
  "data:" ++ f.mime ++ ";base64," ++ String.mk (b64EncodeChars f.bytes)

/-- `fileToGenerativePart` (lines 170-186).  On success the `onloadend`
listener resolves with `dataUrl.split(',')[1]` and the part carries
`file.type` as `mimeType`; on a failed read the promise stays pending (see
the section comment). -/
def fileToGenerativePart (file : FileData) (read : ReadResult) : JsPromise EncodedFile :=
  match read with
  | .failure => .pending
  | .success =>
      let dataUrl := readAsDataURL file
      let base64Data := (splitOnComma dataUrl.data).getD 1 []
      .resolved { data := String.mk base64Data, mimeType := file.mime }

/-- Modelled from the spec: the transport decoder is not part of this
repository (the encoded part is consumed by the external model service);
the spec describes the transport representation as base64 data plus the
MIME type, so decoding is base64-decoding the data and keeping the MIME
type. -/
def decodeGenerativePart (e : EncodedFile) : Option FileData :=
  (b64DecodeChars e.data.data).map (fun bytes => { bytes := bytes, mime := e.mimeType })

/-! ### Deadline countdown (src/index.tsx, lines 142-167)

`setDeadline` fixes the deadline `2025-10-07T12:00:00Z` (epoch milliseconds
1759838400000) and starts a 1-second interval running `updateCountdown`.
The countdown state records the display text and whether the interval is
still installed; a tick with the interval cleared changes nothing (the
callback no longer runs). -/

def deadlineTimeMs : Int := 1759838400000

def deadlinePassedMessage : String := "The deadline has passed."

structure CountdownState where
  display : String
  active : Bool
deriving DecidableEq

/-- The body of `updateCountdown` for a positive `diff`. -/
def formatCountdown (diff : Int) : String :=
  let d := diff.toNat
  toString (d / 86400000) ++ "d " ++ toString (d % 86400000 / 3600000) ++ "h "
  ++ toString (d % 3600000 / 60000) ++ "m " ++ toString (d % 60000 / 1000) ++ "s"

/-- One tick of the countdown interval at wall-clock time `now` (epoch ms):
`updateCountdown` runs only while the interval is installed; at or past the
deadline it writes the terminal message and clears the interval. -/
def countdownTick (now : Int) (st : CountdownState) : CountdownState :=
  if st.active then
    if deadlineTimeMs - now ≤ 0 then
      { display := deadlinePassedMessage, active := false }
    else
      { display := formatCountdown (deadlineTimeMs - now), active := true }
  else st

/-- `setDeadline` installs the interval and runs `updateCountdown` once
immediately. -/
def setDeadline (now : Int) : CountdownState :=
  countdownTick now { display := "", active := true }

def runTicks (st : CountdownState) (times : List Int) : CountdownState :=
  times.foldl (fun s t => countdownTick t s) st

/-! ### UI State Controller and the submit listener (src/index.tsx, 189-216 and 414-474)

The DOM state that the controller mutates, and the submit listener as a
state transformer.  The listener also yields the ordered trace of the
effects it performs, and whether it hung (awaited a promise that never
settles). -/

structure UIState where
  inputHidden : Bool
  loadingHidden : Bool
  errorHidden : Bool
  resultsHtml : String
  errorHtml : String
  submitDisabled : Bool
  loadingMessageText : String
  msgTimerOn : Bool
deriving DecidableEq

def loadingMessages : List String :=
  ["Analyzing your CV against Chevening criteria...",
   "Searching the official course database...",
   "Scoring and ranking top matches...",
   "Compiling your personalized strategy...",
   "This may take a moment. Great recommendations are on their way!"]

/-- `showLoading` (lines 189-210); the source names the parameter `show`,
which is a Lean keyword. -/
def showLoading (visible : Bool) (st : UIState) : UIState :=
  if visible then
    { st with inputHidden := true, resultsHtml := "", errorHidden := true,
              loadingHidden := false, submitDisabled := true,
              loadingMessageText := loadingMessages.getD 0 "", msgTimerOn := true }
  else
    { st with loadingHidden := true, inputHidden := false,
              submitDisabled := false, msgTimerOn := false }

def errorPanelHtml (message : String) : String :=
  "<p><strong>An error occurred:</strong> " ++ message ++ "</p><p>Please try again.</p>"

/-- `showError` (lines 212-216): clears the results area, then fills and
unhides the error panel. -/
def showError (message : String) (st : UIState) : UIState :=
  { st with resultsHtml := "", errorHtml := errorPanelHtml message,
            errorHidden := false }

def uploadErrorMessage : String := "Please upload your CV file."

def invalidTypeErrorMessage : String :=
  "Invalid file type. Please upload a PDF or DOCX file."

def allowedTypes : List String :=
  ["application/pdf",
   "application/vnd.openxmlformats-officedocument.wordprocessingml.document"]

inductive Effect
  | errorShown (msg : String)
  | loadingShown (visible : Bool)
  | modelCalled
  | resultsRendered
deriving DecidableEq

structure RunOutcome where
  state : UIState
  effects : List Effect
  hung : Bool
deriving DecidableEq

/-- The environment of one submission: the FileReader outcome, the model
call outcome (`generateContent` resolves with `response.text` or rejects
with an error message), the outcome of `JSON.parse` on a given text (throws
with a message, or yields a document), and the message of the `TypeError`
thrown if a renderer dereferences an absent field. -/
structure Oracle where
  read : ReadResult
  model : Except String String
  parse : String → Except String ResultDocument
  renderErrMsg : String

/-- The form `submit` listener (lines 414-474): validation, `showLoading`,
the awaited pipeline inside `try`, `showError` in `catch`, and
`showLoading(false)` in `finally`.  When the encoder promise never settles
the listener is suspended forever: neither `catch` nor `finally` runs. -/
def handleSubmit (files : List FileData) (o : Oracle) (st : UIState) : RunOutcome :=
  match files.head? with
  | none =>
      { state := showError uploadErrorMessage st,
        effects := [.errorShown uploadErrorMessage], hung := false }
  | some cvFile =>
      if allowedTypes.contains cvFile.mime = false then
        { state := showError invalidTypeErrorMessage st,
          effects := [.errorShown invalidTypeErrorMessage], hung := false }
      else
        let st1 := showLoading true st
        match fileToGenerativePart cvFile o.read with
        | .pending =>
            { state := st1, effects := [.loadingShown true], hung := true }
        | .rejected msg =>
            { state := showLoading false (showError msg st1),
              effects := [.loadingShown true, .errorShown msg, .loadingShown false],
              hung := false }
        | .resolved _ =>
            match o.model with
            | .error msg =>
                { state := showLoading false (showError msg st1),
                  effects := [.loadingShown true, .modelCalled,
                              .errorShown msg, .loadingShown false],
                  hung := false }
            | .ok text =>
                match o.parse text.trim with
                | .error msg =>
                    { state := showLoading false (showError msg st1),
                      effects := [.loadingShown true, .modelCalled,
                                  .errorShown msg, .loadingShown false],
                      hung := false }
                | .ok data =>
                    match renderResults data with
                    | none =>
                        { state := showLoading false (showError o.renderErrMsg st1),
                          effects := [.loadingShown true, .modelCalled,
                                      .errorShown o.renderErrMsg, .loadingShown false],
                          hung := false }
                    | some html =>
                        { state := showLoading false { st1 with resultsHtml := html },
                          effects := [.loadingShown true, .modelCalled,
                                      .resultsRendered, .loadingShown false],
                          hung := false }

/-! ### Concrete sample values used by witnesses -/

def initialUI : UIState :=
  { inputHidden := false, loadingHidden := true, errorHidden := true,
    resultsHtml := "", errorHtml := "", submitDisabled := false,
    loadingMessageText := "", msgTimerOn := false }

def samplePdfFile : FileData := { bytes := [37, 80, 68, 70], mime := "application/pdf" }

def sampleTxtFile : FileData := { bytes := [104, 105], mime := "text/plain" }

def sampleOracle : Oracle :=
  { read := .success, model := .ok "", parse := fun _ => .error "Unexpected end of JSON input",
    renderErrMsg := "TypeError" }

/-- Results and a populated, visible error panel never coexist. -/
def noConflict (s : UIState) : Prop :=
  s.resultsHtml = "" ∨ s.errorHidden = true ∨ s.errorHtml = ""

instance (s : UIState) : Decidable (noConflict s) := by
  unfold noConflict; infer_instance

def bulletsAllAbsent : Bullets :=
  { leadership := none, networking := none, career_plan := none }

def trioEntryNoProgramme : TrioEntry :=
  { university := some "U", programme := none, why_this_trio := some "w" }

def courseNoProgramme : CourseEntry :=
  { rank := some 1, university := some "U", programme := none, city := none,
    url := none, start_cycle := none, duration_months := none, fee_gbp := none,
    chevening_rationale := none, eligibility_check := none, score_breakdown := none }

def profileNoStrengths : Profile := { strengths := none, gaps := some ["g"] }

def bulletsNoNetworking : Bullets :=
  { leadership := some ["l"], networking := none, career_plan := some ["c"] }

def trioEntryNoProgramme2 : TrioEntry :=
  { university := some "V", programme := none, why_this_trio := some "w2" }

def trioMixedPair : List TrioEntry :=
  [{ university := some "U", programme := some "MSc", why_this_trio := some "w" },
   trioEntryNoProgramme2]

def sampleTrioEntry : TrioEntry :=
  { university := some "LSE", programme := some "MSc Finance",
    why_this_trio := some "fit" }

def sampleCourse : CourseEntry :=
  { rank := some 1, university := some "LSE", programme := some "MSc Finance",
    city := some "London", url := some "https://example.org/msc",
    start_cycle := some "Sep 2026", duration_months := some 12,
    fee_gbp := some "30000", chevening_rationale := some ["good fit"],
    eligibility_check := some { is_eligible := some true, reason := some "ok" },
    score_breakdown := some "top score" }

def sampleAlt : AlternativeEntry :=
  { university := some "UCL", programme := some "MSc Economics",
    url := some "https://example.org/alt", why_consider := some "alternative" }

def sampleDoc : ResultDocument :=
  { profile := some { strengths := some ["s"], gaps := some ["g"] },
    ranked_courses := some [sampleCourse],
    chevening_trio := some [sampleTrioEntry],
    personal_statement_bullets := some { leadership := some ["l"],
                                         networking := some ["n"],
                                         career_plan := some ["c"] },
    alternatives := some [sampleAlt],
    notes := some ["verify fees"] }

/-! ### Advisory claims (C7, C8)

"The fragment contains the advisory" is substring occurrence (`strOccurs`).
Because the renderer assembles HTML by plain string concatenation without
escaping, a data field can inject the advisory text into the fragment; the
"never contains" directions therefore hold only for injection-free entries.
The formal injection-freedom condition is that the interpolated field texts
avoid a marker character of the advisory: '£' occurs in the MBA fee-cap
advisory and in no other fragment literal, and capital 'N' occurs in the
diversification advisory and in no other trio-fragment literal. -/

def charFree (ch : Char) (s : String) : Prop := ch ∉ s.data

instance (ch : Char) (s : String) : Decidable (charFree ch s) := by
  unfold charFree; infer_instance

def trioCleanPound (e : TrioEntry) : Prop :=
  charFree '£' (jsStr e.university) ∧ charFree '£' (jsStr e.programme) ∧
  charFree '£' (jsStr e.why_this_trio)

def trioCleanNote (e : TrioEntry) : Prop :=
  charFree 'N' (jsStr e.university) ∧ charFree 'N' (jsStr e.programme) ∧
  charFree 'N' (jsStr e.why_this_trio)

def courseCleanPound (c : CourseEntry) : Prop :=
  charFree '£' (jsInt c.rank) ∧ charFree '£' (jsStr c.university) ∧
  charFree '£' (jsStr c.programme) ∧ charFree '£' (jsStr c.city) ∧
  charFree '£' (jsStr c.url) ∧ charFree '£' (jsStr c.start_cycle) ∧
  charFree '£' (jsInt c.duration_months) ∧ charFree '£' (jsStr c.fee_gbp) ∧
  (∀ x ∈ c.chevening_rationale.getD [], charFree '£' x) ∧
  charFree '£' (jsStr (c.eligibility_check.bind EligibilityCheck.reason)) ∧
  charFree '£' (jsStr c.score_breakdown)

instance (e : TrioEntry) : Decidable (trioCleanPound e) := by
  unfold trioCleanPound; infer_instance

instance (e : TrioEntry) : Decidable (trioCleanNote e) := by
  unfold trioCleanNote; infer_instance

instance (c : CourseEntry) : Decidable (courseCleanPound c) := by
  unfold courseCleanPound; infer_instance

def courseInjected : CourseEntry :=
  { rank := some 2, university := some mbaFeeCapWarning,
    programme := some "MSc Economics", city := some "London",
    url := some "u", start_cycle := some "Sep", duration_months := some 12,
    fee_gbp := some "20000", chevening_rationale := some ["r"],
    eligibility_check := none, score_breakdown := none }

def courseMba : CourseEntry :=
  { rank := some 1, university := some "U", programme := some "MBA",
    city := some "London", url := some "u", start_cycle := some "Sep",
    duration_months := some 12, fee_gbp := some "20000",
    chevening_rationale := some ["r"], eligibility_check := none,
    score_breakdown := none }

def courseEcon : CourseEntry :=
  { rank := some 1, university := some "U", programme := some "MSc Economics",
    city := some "London", url := some "u", start_cycle := some "Sep",
    duration_months := some 12, fee_gbp := some "20000",
    chevening_rationale := some ["r"], eligibility_check := none,
    score_breakdown := none }

def trioInjEntry1 : TrioEntry :=
  { university := some "A", programme := some "MSc X",
    why_this_trio := some trioDiversifyWarning }

def trioInjEntry2 : TrioEntry :=
  { university := some "B", programme := some "MSc Y",
    why_this_trio := some "y" }

def trioInjectPair : List TrioEntry := [trioInjEntry1, trioInjEntry2]

def trioSameUni : List TrioEntry :=
  [{ university := some "LSE", programme := some "MSc A",
     why_this_trio := some "a" },
   { university := some "LSE", programme := some "MSc B",
     why_this_trio := some "b" },
   { university := some "LSE", programme := some "MSc C",
     why_this_trio := some "c" }]

/-! ### Theorems -/

theorem strEq_of_data {a b : String} (h : a.data = b.data) : a = b := by
  cases a; cases b; exact congrArg String.mk h

theorem char_notin_append {c : Char} {a b : String}
    (ha : c ∉ a.data) (hb : c ∉ b.data) : c ∉ (a ++ b).data := by
  rw [String.data_append]
  simp only [List.mem_append]
  rintro (h | h)
  · exact ha h
  · exact hb h

theorem char_notin_concatAll {c : Char} {l : List String}
    (h : ∀ s ∈ l, c ∉ s.data) : c ∉ (concatAll l).data := by
  induction l with
  | nil => simp [concatAll]
  | cons s rest ih =>
      exact char_notin_append (h s (by simp)) (ih fun t ht => h t (by simp [ht]))

theorem strOccurs_of_decomp {pre adv post s : String}
    (h : s = pre ++ adv ++ post) : strOccurs s adv := by
  refine ⟨pre.data, post.data, ?_⟩
  simp [h, String.data_append]

theorem not_strOccurs_of_char {c : Char} {s pat : String}
    (hc : c ∈ pat.data) (hs : c ∉ s.data) : ¬ strOccurs s pat :=
  fun h => hs (h.sublist.subset hc)

theorem mem_concatAll_strOccurs {s : String} {l : List String}
    (h : s ∈ l) : strOccurs (concatAll l) s := by
  induction l with
  | nil => cases h
  | cons t rest ih =>
      rcases List.mem_cons.1 h with rfl | h
      · exact ⟨[], (concatAll rest).data, by simp [concatAll, String.data_append]⟩
      · rcases ih h with ⟨u, v, huv⟩
        refine ⟨t.data ++ u, v, ?_⟩
        simp [concatAll, String.data_append, ← huv]

theorem idxOfC_append_left {c : Char} {l : List Char} (t : List Char)
    (h : c ∈ l) : idxOfC c (l ++ t) = idxOfC c l := by
  induction l with
  | nil => cases h
  | cons a l ih =>
      by_cases hac : a = c
      · simp [idxOfC, hac]
      · rcases List.mem_cons.1 h with rfl | h
        · exact absurd rfl hac
        · simp [idxOfC, hac, ih h]

theorem idxOfC_append_right {c : Char} {l : List Char} (t : List Char)
    (h : c ∉ l) : idxOfC c (l ++ t) = l.length + idxOfC c t := by
  induction l with
  | nil => simp [idxOfC]
  | cons a l ih =>
      have hac : a ≠ c := fun hh => h (by simp [hh])
      have : c ∉ l := fun hh => h (by simp [hh])
      simp [idxOfC, hac, ih this]
      omega

/-- If a marker character `c` occurs in `adv` but in neither `U` nor `V`,
then the decomposition of a list as `U ++ adv ++ V` is unique: the
occurrence of `adv` witnessed by that decomposition is the only one. -/
theorem unique_decomp {adv U V U' V' : List Char} {c : Char}
    (hc : c ∈ adv) (hU : c ∉ U) (hV : c ∉ V)
    (heq : U ++ adv ++ V = U' ++ adv ++ V') : U' = U ∧ V' = V := by
  have hcount : (U ++ adv ++ V).count c = adv.count c := by
    simp [List.count_append, List.count_eq_zero.2 hU, List.count_eq_zero.2 hV]
  have hcount' : (U' ++ adv ++ V').count c = adv.count c := by
    rw [← heq]; exact hcount
  have hadvpos : 0 < adv.count c := List.count_pos_iff.2 hc
  have hU' : c ∉ U' := by
    intro hmem
    have : 0 < U'.count c := List.count_pos_iff.2 hmem
    simp [List.count_append] at hcount'
    omega
  have hV' : c ∉ V' := by
    intro hmem
    have : 0 < V'.count c := List.count_pos_iff.2 hmem
    simp [List.count_append] at hcount'
    omega
  have heq' : U ++ (adv ++ V) = U' ++ (adv ++ V') := by
    simpa [List.append_assoc] using heq
  rcases List.append_eq_append_iff.1 heq' with ⟨W, hW1, hW2⟩ | ⟨W, hW1, hW2⟩
  · -- U' = U ++ W and adv ++ V = W ++ (adv ++ V')
    have hcW : c ∉ W := fun hmem => hU' (by simp [hW1, hmem])
    have hidx : idxOfC c (adv ++ V) = idxOfC c (W ++ (adv ++ V')) := by rw [hW2]
    rw [idxOfC_append_left V hc, idxOfC_append_right _ hcW,
        idxOfC_append_left V' hc] at hidx
    have hWnil : W = [] := List.length_eq_zero.1 (by omega)
    subst hWnil
    refine ⟨by simp [hW1], ?_⟩
    have := hW2
    simp only [List.nil_append] at this
    exact (List.append_cancel_left this).symm
  · -- U = U' ++ W and adv ++ V' = W ++ (adv ++ V)
    have hcW : c ∉ W := fun hmem => hU (by simp [hW1, hmem])
    have hidx : idxOfC c (adv ++ V') = idxOfC c (W ++ (adv ++ V)) := by rw [hW2]
    rw [idxOfC_append_left V' hc, idxOfC_append_right _ hcW,
        idxOfC_append_left V hc] at hidx
    have hWnil : W = [] := List.length_eq_zero.1 (by omega)
    subst hWnil
    refine ⟨by simp [hW1], ?_⟩
    have := hW2
    simp only [List.nil_append] at this
    exact List.append_cancel_left this

theorem b64_decode_encode_sextet : ∀ n < 64, b64DecodeSextet (b64EncodeSextet n) = some n := by
  decide

theorem b64_encode_sextet_ne_pad : ∀ n < 64, b64EncodeSextet n ≠ '=' := by
  decide

theorem b64_encode_sextet_ne_comma (n : Nat) : b64EncodeSextet n ≠ ',' := by
  by_cases h : n < 64
  · revert n h
    decide
  · unfold b64EncodeSextet
    rw [List.getD_eq_default]
    · decide
    · have : b64AlphabetChars.length = 64 := by decide
      omega

theorem comma_notin_b64EncodeChars (l : List Nat) : ',' ∉ b64EncodeChars l := by
  induction l using b64EncodeChars.induct with
  | case1 => simp [b64EncodeChars]
  | case2 a =>
      simp only [b64EncodeChars, List.mem_cons, List.not_mem_nil, or_false]
      rintro (h | h | h | h) <;>
        first
        | exact b64_encode_sextet_ne_comma _ h.symm
        | exact absurd h (by decide)
  | case3 a b =>
      simp only [b64EncodeChars, List.mem_cons, List.not_mem_nil, or_false]
      rintro (h | h | h | h) <;>
        first
        | exact b64_encode_sextet_ne_comma _ h.symm
        | exact absurd h (by decide)
  | case4 a b c rest ih =>
      simp only [b64EncodeChars, List.mem_cons]
      rintro (h | h | h | h | h) <;>
        first
        | exact b64_encode_sextet_ne_comma _ h.symm
        | exact ih h

/-- Round trip: decoding the base64 encoding of a byte list recovers it. -/
theorem b64_roundtrip (l : List Nat) (h : ∀ b ∈ l, b < 256) :
    b64DecodeChars (b64EncodeChars l) = some l := by
  induction l using b64EncodeChars.induct with
  | case1 => simp [b64EncodeChars, b64DecodeChars]
  | case2 a =>
      have ha : a < 256 := h a (by simp)
      have h1 : a / 4 < 64 := by omega
      have h2 : a % 4 * 16 < 64 := by omega
      have e1 : a / 4 * 4 + a % 4 * 16 / 16 = a := by omega
      simp [b64EncodeChars, b64DecodeChars,
        b64_decode_encode_sextet _ h1, b64_decode_encode_sextet _ h2, e1] <;> omega
  | case3 a b =>
      have ha : a < 256 := h a (by simp)
      have hb : b < 256 := h b (by simp)
      have h1 : a / 4 < 64 := by omega
      have h2 : a % 4 * 16 + b / 16 < 64 := by omega
      have h3 : b % 16 * 4 < 64 := by omega
      have e1 : a / 4 * 4 + (a % 4 * 16 + b / 16) / 16 = a := by omega
      have e2 : (a % 4 * 16 + b / 16) % 16 * 16 + b % 16 * 4 / 4 = b := by omega
      simp [b64EncodeChars, b64DecodeChars,
        b64_decode_encode_sextet _ h1, b64_decode_encode_sextet _ h2,
        b64_decode_encode_sextet _ h3, b64_encode_sextet_ne_pad _ h3, e1, e2] <;> omega
  | case4 a b c rest ih =>
      have ha : a < 256 := h a (by simp)
      have hb : b < 256 := h b (by simp)
      have hc : c < 256 := h c (by simp)
      have h1 : a / 4 < 64 := by omega
      have h2 : a % 4 * 16 + b / 16 < 64 := by omega
      have h3 : b % 16 * 4 + c / 64 < 64 := by omega
      have h4 : c % 64 < 64 := by omega
      have ihh : b64DecodeChars (b64EncodeChars rest) = some rest :=
        ih fun x hx => h x (by simp [hx])
      have e1 : a / 4 * 4 + (a % 4 * 16 + b / 16) / 16 = a := by omega
      have e2 : (a % 4 * 16 + b / 16) % 16 * 16 + (b % 16 * 4 + c / 64) / 4 = b := by
        omega
      have e3 : (b % 16 * 4 + c / 64) % 4 * 64 + c % 64 = c := by omega
      simp [b64EncodeChars, b64DecodeChars,
        b64_decode_encode_sextet _ h1, b64_decode_encode_sextet _ h2,
        b64_decode_encode_sextet _ h3, b64_decode_encode_sextet _ h4,
        b64_encode_sextet_ne_pad _ h3, b64_encode_sextet_ne_pad _ h4,
        ihh, e1, e2, e3] <;> omega

theorem splitOnComma_commaFree {l : List Char} (h : ',' ∉ l) :
    splitOnComma l = [l] := by
  induction l with
  | nil => rfl
  | cons a l ih =>
      have ha : a ≠ ',' := fun hh => h (by simp [hh])
      have hl : ',' ∉ l := fun hh => h (by simp [hh])
      simp [splitOnComma, ha, ih hl]

theorem splitOnComma_append {A B : List Char} (hA : ',' ∉ A) :
    splitOnComma (A ++ ',' :: B) = A :: splitOnComma B := by
  induction A with
  | nil => simp [splitOnComma]
  | cons a A ih =>
      have ha : a ≠ ',' := fun hh => hA (by simp [hh])
      have hA' : ',' ∉ A := fun hh => hA (by simp [hh])
      simp [splitOnComma, ha, ih hA']

/-! ### Claims about the countdown, the encoder and the submit listener -/

/-- Claim C9: the deadline countdown, as a step relation ticking once per
second, rewrites its display with the formatted remaining time on every tick
occurring before the fixed deadline timestamp; on the first tick at or past
the deadline it displays the terminal "passed" message and clears its
interval, and from that terminal state no subsequent tick sequence ever
changes the display again. -/
theorem C9_countdown_freezes_at_deadline :
    (∀ (st : CountdownState) (now : Int), st.active = true → 0 < deadlineTimeMs - now →
       countdownTick now st =
         { display := formatCountdown (deadlineTimeMs - now), active := true }) ∧
    (∀ (st : CountdownState) (now : Int), st.active = true → deadlineTimeMs - now ≤ 0 →
       countdownTick now st =
         { display := deadlinePassedMessage, active := false }) ∧
    (∀ times : List Int,
       runTicks { display := deadlinePassedMessage, active := false } times =
         { display := deadlinePassedMessage, active := false }) := by
  refine ⟨?_, ?_, ?_⟩
  · intro st now ha hlt
    rw [countdownTick, if_pos ha, if_neg (by omega)]
  · intro st now ha hle
    rw [countdownTick, if_pos ha, if_pos hle]
  · intro times
    induction times with
    | nil => rfl
    | cons t ts ih =>
        have h : countdownTick t { display := deadlinePassedMessage, active := false } =
            { display := deadlinePassedMessage, active := false } := by
          rw [countdownTick, if_neg (by simp)]
        simp only [runTicks, List.foldl_cons, h]
        exact ih

theorem C9_countdown_freezes_at_deadline_witness :
    countdownTick 1759838400000 { display := "", active := true } =
      { display := deadlinePassedMessage, active := false } ∧
    countdownTick 1759838399000 { display := "", active := true } =
      { display := formatCountdown 1000, active := true } := by
  constructor
  · exact C9_countdown_freezes_at_deadline.2.1 _ _ rfl (by decide)
  · have := C9_countdown_freezes_at_deadline.1 { display := "", active := true }
      1759838399000 rfl (by decide)
    simpa using this

/-- Claim C5 (code bug): the claim says a failed file read makes the File
Encoder's returned promise reject and propagate to the caller; in the code
the promise executor only ever resolves inside `onloadend`, and on a failed
read the listener throws before resolving, so the promise never settles:
it is pending, not rejected, for every file. -/
theorem C5_encoder_read_failure_never_settles (f : FileData) :
    fileToGenerativePart f .failure = .pending ∧
    ∀ msg, fileToGenerativePart f .failure ≠ .rejected msg := by
  refine ⟨rfl, fun msg h => ?_⟩
  exact JsPromise.noConfusion h

/-- Claim C2: submitting with no file selected shows the "please upload"
validation error, and submitting a file with a MIME type outside the PDF /
DOCX allow-list shows the "invalid file type" error; in both cases the trace
contains no model call and never enters Loading. -/
theorem C2_validation_blocks_model_call (o : Oracle) (st : UIState) :
    (∀ files : List FileData, files = [] →
       handleSubmit files o st =
         { state := showError uploadErrorMessage st,
           effects := [.errorShown uploadErrorMessage], hung := false } ∧
       Effect.modelCalled ∉ (handleSubmit files o st).effects ∧
       Effect.loadingShown true ∉ (handleSubmit files o st).effects) ∧
    (∀ (files : List FileData) (cvFile : FileData), files.head? = some cvFile →
       allowedTypes.contains cvFile.mime = false →
       handleSubmit files o st =
         { state := showError invalidTypeErrorMessage st,
           effects := [.errorShown invalidTypeErrorMessage], hung := false } ∧
       Effect.modelCalled ∉ (handleSubmit files o st).effects ∧
       Effect.loadingShown true ∉ (handleSubmit files o st).effects) := by
  constructor
  · rintro files rfl
    refine ⟨rfl, by simp [handleSubmit], by simp [handleSubmit]⟩
  · intro files cvFile hf ht
    have hredux : handleSubmit files o st =
        { state := showError invalidTypeErrorMessage st,
          effects := [.errorShown invalidTypeErrorMessage], hung := false } := by
      simp only [handleSubmit, hf]
      rw [if_pos ht]
    refine ⟨hredux, ?_, ?_⟩ <;> rw [hredux] <;> simp

theorem C2_validation_blocks_model_call_witness :
    (handleSubmit [] sampleOracle initialUI =
       { state := showError uploadErrorMessage initialUI,
         effects := [.errorShown uploadErrorMessage], hung := false }) ∧
    (handleSubmit [sampleTxtFile] sampleOracle initialUI =
       { state := showError invalidTypeErrorMessage initialUI,
         effects := [.errorShown invalidTypeErrorMessage], hung := false }) :=
  ⟨((C2_validation_blocks_model_call sampleOracle initialUI).1 [] rfl).1,
   ((C2_validation_blocks_model_call sampleOracle initialUI).2 [sampleTxtFile]
      sampleTxtFile rfl (by decide)).1⟩

/-- Claim C3 (code bug): the claim says every failing submission that
entered Loading reaches the error view with the submit control re-enabled
and an empty results area.  That holds for a model-call rejection and for an
unparseable response text, but not for a file-encoding failure: there the
awaited encoder promise never settles, so `catch`/`finally` never run and
the UI stays in Loading with the submit control disabled and no error
shown. -/
theorem C3_failure_transitions (files : List FileData) (cvFile : FileData)
    (o : Oracle) (st : UIState)
    (hf : files.head? = some cvFile) (ht : allowedTypes.contains cvFile.mime = true) :
    (o.read = .failure →
       (handleSubmit files o st).hung = true ∧
       (handleSubmit files o st).state.loadingHidden = false ∧
       (handleSubmit files o st).state.submitDisabled = true ∧
       (handleSubmit files o st).state.errorHidden = true ∧
       Effect.errorShown o.renderErrMsg ∉ (handleSubmit files o st).effects) ∧
    (∀ msg, o.read = .success → o.model = .error msg →
       (handleSubmit files o st).state.errorHidden = false ∧
       (handleSubmit files o st).state.errorHtml = errorPanelHtml msg ∧
       (handleSubmit files o st).state.submitDisabled = false ∧
       (handleSubmit files o st).state.resultsHtml = "" ∧
       (handleSubmit files o st).hung = false) ∧
    (∀ text msg, o.read = .success → o.model = .ok text →
       o.parse text.trim = .error msg →
       (handleSubmit files o st).state.errorHidden = false ∧
       (handleSubmit files o st).state.errorHtml = errorPanelHtml msg ∧
       (handleSubmit files o st).state.submitDisabled = false ∧
       (handleSubmit files o st).state.resultsHtml = "" ∧
       (handleSubmit files o st).hung = false) := by
  have hmem : cvFile.mime ∈ allowedTypes := by simpa using ht
  refine ⟨?_, ?_, ?_⟩
  · intro hread
    simp [handleSubmit, hf, hmem, hread, fileToGenerativePart, showLoading, showError]
  · intro msg hread hmodel
    simp [handleSubmit, hf, hmem, hread, hmodel, fileToGenerativePart,
      showLoading, showError]
  · intro text msg hread hmodel hparse
    simp [handleSubmit, hf, hmem, hread, hmodel, hparse, fileToGenerativePart,
      showLoading, showError]

theorem C3_failure_transitions_witness :
    (handleSubmit [samplePdfFile]
        { sampleOracle with read := .failure } initialUI).hung = true ∧
    (handleSubmit [samplePdfFile]
        { sampleOracle with read := .failure } initialUI).state.submitDisabled = true ∧
    (handleSubmit [samplePdfFile]
        { sampleOracle with model := .error "network" } initialUI).state.errorHidden = false ∧
    (handleSubmit [samplePdfFile]
        { sampleOracle with model := .error "network" } initialUI).state.submitDisabled = false := by
  have h1 := (C3_failure_transitions [samplePdfFile] samplePdfFile
    { sampleOracle with read := .failure } initialUI rfl (by decide)).1 rfl
  have h2 := ((C3_failure_transitions [samplePdfFile] samplePdfFile
    { sampleOracle with model := .error "network" } initialUI rfl (by decide)).2.1)
    "network" rfl rfl
  exact ⟨h1.1, h1.2.2.1, h2.1, h2.2.2.1⟩

/-- Claim C10: every error display first clears the results area and then
fills and unhides the error panel; entering Loading also clears the results
area; leaving Loading preserves the no-conflict invariant; and after any run
of the submit listener — from any prior state, including one holding results
of an earlier successful run — rendered results and a populated visible
error panel never coexist. -/
theorem C10_no_results_with_error :
    (∀ msg st, (showError msg st).resultsHtml = "" ∧
       (showError msg st).errorHtml = errorPanelHtml msg ∧
       (showError msg st).errorHidden = false) ∧
    (∀ st, noConflict (showLoading true st)) ∧
    (∀ st, noConflict st → noConflict (showLoading false st)) ∧
    (∀ files o st, noConflict (handleSubmit files o st).state) := by
  refine ⟨fun msg st => ⟨rfl, rfl, rfl⟩, fun st => Or.inl rfl, ?_, ?_⟩
  · intro st h
    simpa [noConflict, showLoading] using h
  · intro files o st
    cases hf : files.head? with
    | none => simp [handleSubmit, hf, noConflict, showError]
    | some cvFile =>
        by_cases hm : cvFile.mime ∈ allowedTypes
        case neg =>
          simp [handleSubmit, hf, hm, noConflict, showError]
        case pos =>
          cases hr : o.read with
          | failure =>
              simp [handleSubmit, hf, hm, hr, fileToGenerativePart, noConflict,
                showLoading]
          | success =>
              cases hmod : o.model with
              | error msg =>
                  simp [handleSubmit, hf, hm, hr, hmod, fileToGenerativePart,
                    noConflict, showLoading, showError]
              | ok text =>
                  cases hp : o.parse text.trim with
                  | error msg =>
                      simp [handleSubmit, hf, hm, hr, hmod, hp,
                        fileToGenerativePart, noConflict, showLoading, showError]
                  | ok data =>
                      cases hrr : renderResults data with
                      | none =>
                          simp [handleSubmit, hf, hm, hr, hmod, hp, hrr,
                            fileToGenerativePart, noConflict, showLoading, showError]
                      | some html =>
                          simp [handleSubmit, hf, hm, hr, hmod, hp, hrr,
                            fileToGenerativePart, noConflict, showLoading]

theorem C10_no_results_with_error_witness :
    noConflict (showLoading false { initialUI with resultsHtml := "<p>r</p>" }) :=
  C10_no_results_with_error.2.2.1 { initialUI with resultsHtml := "<p>r</p>" }
    (by decide)

/-- Claim C6: encoding a file into its transport representation (base64
data plus MIME type) and decoding that representation back yields the
original bytes and MIME type.  Bytes are byte-valued naturals; the MIME
type must not contain a comma, because the source recovers the base64
payload as `dataUrl.split(',')[1]`, which takes the text between the first
and second commas of the data URL. -/
theorem C6_encode_decode_roundtrip (f : FileData)
    (hb : ∀ b ∈ f.bytes, b < 256) (hm : ',' ∉ f.mime.data) :
    ∃ part, fileToGenerativePart f .success = .resolved part ∧
      part.mimeType = f.mime ∧ decodeGenerativePart part = some f := by
  have hApieces : ',' ∉ ("data:" ++ f.mime ++ ";base64").data :=
    char_notin_append (char_notin_append (by decide) hm) (by decide)
  have hdata : (readAsDataURL f).data =
      ("data:" ++ f.mime ++ ";base64").data ++ ',' :: b64EncodeChars f.bytes := by
    have h1 : (";base64," : String).data = (";base64" : String).data ++ [','] := by
      decide
    show ("data:" ++ f.mime ++ ";base64," ++ String.mk (b64EncodeChars f.bytes)).data = _
    simp [String.data_append, h1]
  have hsplit : (splitOnComma (readAsDataURL f).data).getD 1 [] =
      b64EncodeChars f.bytes := by
    rw [hdata, splitOnComma_append hApieces,
        splitOnComma_commaFree (comma_notin_b64EncodeChars f.bytes)]
    rfl
  refine ⟨_, rfl, rfl, ?_⟩
  show decodeGenerativePart
      { data := String.mk ((splitOnComma (readAsDataURL f).data).getD 1 []),
        mimeType := f.mime } = some f
  rw [decodeGenerativePart]
  show (b64DecodeChars ((splitOnComma (readAsDataURL f).data).getD 1 [])).map _ = _
  rw [hsplit, b64_roundtrip f.bytes hb]
  rfl

theorem C6_encode_decode_roundtrip_witness :
    ∃ part, fileToGenerativePart sampleTxtFile .success = .resolved part ∧
      part.mimeType = sampleTxtFile.mime ∧
      decodeGenerativePart part = some sampleTxtFile :=
  C6_encode_decode_roundtrip sampleTxtFile (by decide) (by decide)

theorem strOccurs_append_left {a b pat : String} (h : strOccurs a pat) :
    strOccurs (a ++ b) pat := by
  rcases h with ⟨u, v, huv⟩
  refine ⟨u, v ++ b.data, ?_⟩
  simp [String.data_append, ← huv]

theorem strOccurs_append_right {a b pat : String} (h : strOccurs b pat) :
    strOccurs (a ++ b) pat := by
  rcases h with ⟨u, v, huv⟩
  refine ⟨a.data ++ u, v, ?_⟩
  simp [String.data_append, ← huv]

theorem strOccurs_self (s : String) : strOccurs s s :=
  ⟨[], [], by simp⟩

/-- If some entry's card generator throws, so does the whole map. -/
theorem renderCards_none {α : Type} (f : α → Option String) {x : α} {l : List α}
    (hx : x ∈ l) (hfx : f x = none) : renderCards f l = none := by
  induction l with
  | nil => cases hx
  | cons a l ih =>
      rcases List.mem_cons.1 hx with rfl | hx
      · simp [renderCards, hfx]
      · cases hfa : f a <;> simp [renderCards, hfa, ih hx]

/-- Claim C4 counterexample: the fragment generators are not all total on
section values with absent required sub-fields.  `renderBullets` with an
absent `leadership` list throws (`bullets.leadership.map` of undefined), as
do `renderTrio` on an entry without `programme` and `renderRankedCourses`
on an entry without `programme`/`chevening_rationale` — none of them
returns an empty fragment. -/
theorem C4_counterexample :
    renderBullets bulletsAllAbsent = none ∧
    renderTrio [trioEntryNoProgramme] = none ∧
    renderRankedCourses [courseNoProgramme] = none :=
  ⟨rfl, rfl, rfl⟩

/-- Claim C4 amended: only `renderProfileAnalysis` is guarded and returns
the empty fragment when its required sub-fields are absent.  `renderBullets`
throws when any of its three lists is absent; `renderTrio` and
`renderRankedCourses` throw when any entry lacks the fields they
dereference.  `renderAlternatives` is not comparable at all: the committed
function is a syntax error (an unterminated template literal — see
`altCard`), so it has no callable behaviour, let alone the claimed
empty-fragment one; `renderNotes` has no optional sub-fields to be absent. -/
theorem C4_amended_generator_totality :
    (∀ p : Profile, p.strengths = none ∨ p.gaps = none →
       renderProfileAnalysis p = "") ∧
    (∀ b : Bullets,
       b.leadership = none ∨ b.networking = none ∨ b.career_plan = none →
       renderBullets b = none) ∧
    (∀ (e : TrioEntry) (trio : List TrioEntry), e ∈ trio → e.programme = none →
       renderTrio trio = none) ∧
    (∀ (c : CourseEntry) (cs : List CourseEntry), c ∈ cs →
       c.programme = none ∨ c.chevening_rationale = none →
       renderRankedCourses cs = none) := by
  refine ⟨?_, ?_, ?_, ?_⟩
  · rintro p (h | h) <;> simp [renderProfileAnalysis, h]
  · rintro b (h | h | h) <;>
      [skip; cases hl : b.leadership; cases hl : b.leadership] <;>
      [simp [renderBullets, h]; simp [renderBullets, h, hl];
       simp [renderBullets, h, hl]; simp [renderBullets, h, hl];
       simp [renderBullets, h, hl]]
  · intro e trio he hp
    have : trioCard e = none := by simp [trioCard, hp]
    simp [renderTrio, renderCards_none trioCard he this]
  · intro c cs hc hfield
    have hcard : rankedCard c = none := by
      rcases hfield with h | h
      · cases hr : c.chevening_rationale <;> simp [rankedCard, h, hr]
      · cases hp : c.programme <;> simp [rankedCard, h, hp]
    simp [renderRankedCourses, renderCards_none rankedCard hc hcard]

theorem C4_amended_generator_totality_witness :
    renderProfileAnalysis profileNoStrengths = "" ∧
    renderBullets bulletsNoNetworking = none ∧
    renderTrio trioMixedPair = none ∧
    renderRankedCourses [courseNoProgramme] = none := by
  refine ⟨?_, ?_, ?_, ?_⟩
  · exact C4_amended_generator_totality.1 _ (Or.inl rfl)
  · exact C4_amended_generator_totality.2.1 _ (Or.inr (Or.inl rfl))
  · exact C4_amended_generator_totality.2.2.1 trioEntryNoProgramme2 _
      (by simp [trioMixedPair]) rfl
  · exact C4_amended_generator_totality.2.2.2 courseNoProgramme _
      (by simp) (Or.inl rfl)

/-! ### Helpers for the section-structure claim (C1) -/

theorem strDataEmpty : ("" : String).data = [] := rfl

theorem empty_append_str (s : String) : "" ++ s = s :=
  strEq_of_data (by rw [String.data_append, strDataEmpty]; rfl)

theorem concat_toList_append {α : Type} (o : Option α) (g : α → String)
    (L : List String) :
    concatAll ((o.map g).toList ++ L) = sectionStr o g ++ concatAll L := by
  cases o with
  | none => exact (empty_append_str _).symm
  | some x => rfl

theorem renderCards_some {α : Type} (f : α → Option String) {l : List α}
    (h : ∀ e ∈ l, (f e).isSome = true) :
    ∃ cards, renderCards f l = some cards ∧ cards.length = l.length := by
  induction l with
  | nil => exact ⟨[], rfl, rfl⟩
  | cons a l ih =>
      rcases ih (fun e he => h e (by simp [he])) with ⟨cards, hc, hlen⟩
      rcases Option.isSome_iff_exists.1 (h a (by simp)) with ⟨s, hs⟩
      exact ⟨s :: cards, by simp [renderCards, hs, hc], by simp [hlen]⟩

theorem trioCard_isSome {e : TrioEntry} (h : trioEntryWF e = true) :
    (trioCard e).isSome = true := by
  rcases Option.isSome_iff_exists.1 (by simpa [trioEntryWF] using h) with ⟨p, hp⟩
  simp [trioCard, hp]

theorem rankedCard_isSome {c : CourseEntry} (h : courseWF c = true) :
    (rankedCard c).isSome = true := by
  rw [courseWF, Bool.and_eq_true] at h
  rcases Option.isSome_iff_exists.1 h.1 with ⟨p, hp⟩
  rcases Option.isSome_iff_exists.1 h.2 with ⟨r, hr⟩
  simp [rankedCard, hp, hr]

theorem renderTrio_eq {t : List TrioEntry} (h : t.all trioEntryWF = true) :
    ∃ cards, renderCards trioCard t = some cards ∧ cards.length = t.length ∧
      renderTrio t = some (trioHd ++ singleUniversityWarning t ++ " "
        ++ concatAll cards ++ trioTl) := by
  obtain ⟨cards, hc, hlen⟩ := renderCards_some trioCard
    (fun e he => trioCard_isSome (List.all_eq_true.1 h e he))
  exact ⟨cards, hc, hlen, by simp [renderTrio, hc]⟩

theorem renderRanked_eq {cs : List CourseEntry} (h : cs.all courseWF = true) :
    ∃ cards, renderCards rankedCard cs = some cards ∧ cards.length = cs.length ∧
      renderRankedCourses cs = some (rankedHd ++ concatAll cards ++ rankedTl) := by
  obtain ⟨cards, hc, hlen⟩ := renderCards_some rankedCard
    (fun e he => rankedCard_isSome (List.all_eq_true.1 h e he))
  exact ⟨cards, hc, hlen, by simp [renderRankedCourses, hc]⟩

theorem renderBullets_eq {b : Bullets} (h : bulletsWF b = true) :
    ∃ l n c, b.leadership = some l ∧ b.networking = some n ∧ b.career_plan = some c ∧
      renderBullets b = some (bulHd ++ concatAll (l.map liItem) ++ bulMid1
        ++ concatAll (n.map liItem) ++ bulMid2 ++ concatAll (c.map liItem) ++ bulTl) := by
  rw [bulletsWF, Bool.and_eq_true, Bool.and_eq_true] at h
  obtain ⟨⟨h1, h2⟩, h3⟩ := h
  rcases Option.isSome_iff_exists.1 h1 with ⟨l, hl⟩
  rcases Option.isSome_iff_exists.1 h2 with ⟨n, hn⟩
  rcases Option.isSome_iff_exists.1 h3 with ⟨c, hc⟩
  exact ⟨l, n, c, hl, hn, hc, by simp [renderBullets, hl, hn, hc]⟩

theorem renderProfile_eq {p : Profile} (h : profileWF p = true) :
    ∃ sg gp, p.strengths = some sg ∧ p.gaps = some gp ∧
      renderProfileAnalysis p = profHd ++ concatAll (sg.map liItem) ++ profMid
        ++ concatAll (gp.map liItem) ++ profTl := by
  rw [profileWF, Bool.and_eq_true] at h
  rcases Option.isSome_iff_exists.1 h.1 with ⟨sg, hs⟩
  rcases Option.isSome_iff_exists.1 h.2 with ⟨gp, hg⟩
  exact ⟨sg, gp, hs, hg, by simp [renderProfileAnalysis, hs, hg]⟩

theorem wf_parts {d : ResultDocument} (h : wellFormedDoc d = true) :
    (∀ p, d.profile = some p → profileWF p = true) ∧
    (∀ t, d.chevening_trio = some t → t.all trioEntryWF = true) ∧
    (∀ cs, d.ranked_courses = some cs → cs.all courseWF = true) ∧
    (∀ b, d.personal_statement_bullets = some b → bulletsWF b = true) := by
  rw [wellFormedDoc, Bool.and_eq_true, Bool.and_eq_true, Bool.and_eq_true] at h
  obtain ⟨⟨⟨h1, h2⟩, h3⟩, h4⟩ := h
  refine ⟨fun p hp => ?_, fun t ht => ?_, fun cs hc => ?_, fun b hb => ?_⟩
  · rw [hp] at h1; exact h1
  · rw [ht] at h2; exact h2
  · rw [hc] at h3; exact h3
  · rw [hb] at h4; exact h4

theorem sectionFragments_length (d : ResultDocument) :
    (sectionFragments d).length = countPresent d := by
  rcases d with ⟨p, r, t, b, a, n⟩
  cases p <;> cases r <;> cases t <;> cases b <;> cases a <;> cases n <;>
    simp [sectionFragments, countPresent]

theorem countPresent_six {d : ResultDocument} (h : allPresent d = true) :
    countPresent d = 6 := by
  rcases d with ⟨p, r, t, b, a, n⟩
  cases p <;> cases r <;> cases t <;> cases b <;> cases a <;> cases n <;>
    simp_all [allPresent, countPresent]

/-- Claim C1 (code bug): the committed `renderResults` can never render
anything — `renderAlternatives`, which it calls, is a syntax error in the
source (an unterminated template literal, see `altCard`), so loading the
module raises a SyntaxError before any listener is installed.  The claim
describes the evident intent, verified here for the renderer with the
alternatives template modelled from the spec and the older variant: for
every well-formed `ResultDocument` the output of `renderResults` is exactly
the concatenation of one top-level section block per present section, in
the fixed order profile analysis, trio, ranked courses, personal-statement
bullets, alternatives, notes (`sectionFragments`); there are as many blocks
as present sections (six when all are present, and an absent section
contributes no block at all, not even a heading); and each list section's
block carries exactly one entry fragment per element of its list (the
per-section decompositions below). -/
theorem C1_renderResults_section_blocks (d : ResultDocument)
    (hwf : wellFormedDoc d = true) :
    renderResults d = some (concatAll (sectionFragments d)) ∧
    (sectionFragments d).length = countPresent d ∧
    (allPresent d = true → (sectionFragments d).length = 6) ∧
    (∀ p, d.profile = some p →
       ∃ sg gp, p.strengths = some sg ∧ p.gaps = some gp ∧
         renderProfileAnalysis p = profHd ++ concatAll (sg.map liItem) ++ profMid
           ++ concatAll (gp.map liItem) ++ profTl ∧
         (sg.map liItem).length = sg.length ∧ (gp.map liItem).length = gp.length) ∧
    (∀ t, d.chevening_trio = some t →
       ∃ cards, renderCards trioCard t = some cards ∧ cards.length = t.length ∧
         renderTrio t = some (trioHd ++ singleUniversityWarning t ++ " "
           ++ concatAll cards ++ trioTl)) ∧
    (∀ cs, d.ranked_courses = some cs →
       ∃ cards, renderCards rankedCard cs = some cards ∧ cards.length = cs.length ∧
         renderRankedCourses cs = some (rankedHd ++ concatAll cards ++ rankedTl)) ∧
    (∀ b, d.personal_statement_bullets = some b →
       ∃ l n c, b.leadership = some l ∧ b.networking = some n ∧
         b.career_plan = some c ∧
         renderBullets b = some (bulHd ++ concatAll (l.map liItem) ++ bulMid1
           ++ concatAll (n.map liItem) ++ bulMid2
           ++ concatAll (c.map liItem) ++ bulTl)) ∧
    (∀ a, d.alternatives = some a →
       renderAlternatives a = altHd ++ concatAll (a.map altCard) ++ altTl ∧
       (a.map altCard).length = a.length) ∧
    (∀ n, d.notes = some n →
       renderNotes n = notesHd ++ concatAll (n.map liItem) ++ notesTl ∧
       (n.map liItem).length = n.length) := by
  obtain ⟨hwP, hwT, hwR, hwB⟩ := wf_parts hwf
  have secT : ∃ v, sectionOpt d.chevening_trio renderTrio = some v ∧
      ∀ L, concatAll ((d.chevening_trio.map
        (fun t => (renderTrio t).getD "")).toList ++ L) = v ++ concatAll L := by
    cases hT : d.chevening_trio with
    | none => exact ⟨"", rfl, fun L => (empty_append_str _).symm⟩
    | some t =>
        obtain ⟨cards, hc, hlen, htr⟩ := renderTrio_eq (hwT t hT)
        refine ⟨trioHd ++ singleUniversityWarning t ++ " "
          ++ concatAll cards ++ trioTl, ?_, fun L => ?_⟩
        · simpa [sectionOpt] using htr
        · simp [concatAll, htr]
  have secR : ∃ v, sectionOpt d.ranked_courses renderRankedCourses = some v ∧
      ∀ L, concatAll ((d.ranked_courses.map
        (fun cs => (renderRankedCourses cs).getD "")).toList ++ L) = v ++ concatAll L := by
    cases hR : d.ranked_courses with
    | none => exact ⟨"", rfl, fun L => (empty_append_str _).symm⟩
    | some cs =>
        obtain ⟨cards, hc, hlen, htr⟩ := renderRanked_eq (hwR cs hR)
        refine ⟨rankedHd ++ concatAll cards ++ rankedTl, ?_, fun L => ?_⟩
        · simpa [sectionOpt] using htr
        · simp [concatAll, htr]
  have secB : ∃ v, sectionOpt d.personal_statement_bullets renderBullets = some v ∧
      ∀ L, concatAll ((d.personal_statement_bullets.map
        (fun b => (renderBullets b).getD "")).toList ++ L) = v ++ concatAll L := by
    cases hB : d.personal_statement_bullets with
    | none => exact ⟨"", rfl, fun L => (empty_append_str _).symm⟩
    | some b =>
        obtain ⟨l, n, c, hl, hn, hc, hb⟩ := renderBullets_eq (hwB b hB)
        refine ⟨bulHd ++ concatAll (l.map liItem) ++ bulMid1
          ++ concatAll (n.map liItem) ++ bulMid2
          ++ concatAll (c.map liItem) ++ bulTl, ?_, fun L => ?_⟩
        · simpa [sectionOpt] using hb
        · simp [concatAll, hb]
  obtain ⟨v2, hv2, hc2⟩ := secT
  obtain ⟨v3, hv3, hc3⟩ := secR
  obtain ⟨v4, hv4, hc4⟩ := secB
  refine ⟨?_, sectionFragments_length d,
    fun hall => (sectionFragments_length d).trans (countPresent_six hall),
    ?_, ?_, ?_, ?_, ?_, ?_⟩
  · -- the rendered output is the concatenation of the present blocks
    have hRender : renderResults d = some
        (sectionStr d.profile renderProfileAnalysis ++ v2 ++ v3 ++ v4
         ++ sectionStr d.alternatives renderAlternatives
         ++ sectionStr d.notes renderNotes) := by
      unfold renderResults
      rw [hv2, Option.some_bind, hv3, Option.some_bind, hv4, Option.some_bind]
    have h6 : concatAll ((d.notes.map renderNotes).toList) =
        sectionStr d.notes renderNotes := by
      have := concat_toList_append d.notes renderNotes []
      simpa [concatAll] using this
    have hConcat : concatAll (sectionFragments d) =
        sectionStr d.profile renderProfileAnalysis
        ++ (v2 ++ (v3 ++ (v4
        ++ (sectionStr d.alternatives renderAlternatives
        ++ sectionStr d.notes renderNotes)))) := by
      unfold sectionFragments
      rw [List.append_assoc, List.append_assoc, List.append_assoc, List.append_assoc]
      rw [concat_toList_append, hc2, hc3, hc4, concat_toList_append, h6]
    rw [hRender, hConcat]
    refine congrArg some (strEq_of_data ?_)
    simp [String.data_append, strDataEmpty, List.append_assoc]
  · intro p hp
    obtain ⟨sg, gp, hs, hg, he⟩ := renderProfile_eq (hwP p hp)
    exact ⟨sg, gp, hs, hg, he, by simp, by simp⟩
  · intro t ht
    exact renderTrio_eq (hwT t ht)
  · intro cs hc
    exact renderRanked_eq (hwR cs hc)
  · intro b hb
    exact renderBullets_eq (hwB b hb)
  · intro a _
    exact ⟨rfl, by simp⟩
  · intro n _
    exact ⟨rfl, by simp⟩

theorem C1_renderResults_section_blocks_witness :
    wellFormedDoc sampleDoc = true ∧ allPresent sampleDoc = true ∧
    renderResults sampleDoc = some (concatAll (sectionFragments sampleDoc)) ∧
    (sectionFragments sampleDoc).length = 6 :=
  ⟨rfl, rfl, (C1_renderResults_section_blocks sampleDoc rfl).1,
   (C1_renderResults_section_blocks sampleDoc rfl).2.2.1 rfl⟩

theorem strOccurs_trans {s b pat : String} (h1 : strOccurs b pat)
    (h2 : strOccurs s b) : strOccurs s pat := h1.trans h2

/-- Every rendered card comes from some entry of the list. -/
theorem renderCards_mem {α : Type} (f : α → Option String) :
    ∀ {l : List α} {cards : List String}, renderCards f l = some cards →
      ∀ s ∈ cards, ∃ e ∈ l, f e = some s := by
  intro l
  induction l with
  | nil =>
      intro cards h s hs
      simp [renderCards] at h
      subst h
      cases hs
  | cons a l ih =>
      intro cards h s hs
      cases hfa : f a with
      | none => simp [renderCards, hfa] at h
      | some sa =>
          cases hrec : renderCards f l with
          | none => simp [renderCards, hfa, hrec] at h
          | some rest =>
              simp [renderCards, hfa, hrec] at h
              rw [← h] at hs
              rcases List.mem_cons.1 hs with rfl | hs'
              · exact ⟨a, by simp, hfa⟩
              · obtain ⟨e, he, hf⟩ := ih hrec s hs'
                exact ⟨e, by simp [he], hf⟩

theorem charFree_liItems {ch : Char} (hlt : ch ∉ "<li>".data)
    (hgt : ch ∉ "</li>".data) {r : List String} (h : ∀ x ∈ r, charFree ch x) :
    charFree ch (concatAll (r.map liItem)) := by
  apply char_notin_concatAll
  intro s hs
  rcases List.mem_map.1 hs with ⟨x, hx, rfl⟩
  exact char_notin_append (char_notin_append hlt (h x hx)) hgt

theorem eligBadge_poundFree (ec : Option EligibilityCheck) :
    charFree '£' (eligibilityBadge ec) := by
  cases ec with
  | none => decide
  | some e =>
      rw [eligibilityBadge]
      split <;> decide

theorem eligReason_poundFree {ec : Option EligibilityCheck}
    (h : charFree '£' (jsStr (ec.bind EligibilityCheck.reason))) :
    charFree '£' (eligibilityReason ec) := by
  cases ec with
  | none => decide
  | some e =>
      rw [eligibilityReason]
      split
      · decide
      · exact char_notin_append (char_notin_append (by decide) h) (by decide)

theorem feeDisplay_poundFree {fee : Option String}
    (h : charFree '£' (jsStr fee)) : charFree '£' (feeDisplay fee) := by
  rw [feeDisplay]
  split
  · exact char_notin_append (char_notin_append (by decide) h) (by decide)
  · refine char_notin_append (by decide) ?_
    split
    · cases fee with
      | none => decide
      | some f => exact h
    · decide

theorem scoreBlock_poundFree {sb : Option String}
    (h : charFree '£' (jsStr sb)) : charFree '£' (scoreBlock sb) := by
  rw [scoreBlock]
  split
  · exact char_notin_append (char_notin_append (by decide) h) (by decide)
  · decide

theorem trioCard_poundFree {e : TrioEntry} {p s : String}
    (hp : e.programme = some p) (hmba : jsIncludes (jsToLower p) "mba" = false)
    (hc : trioCleanPound e) (hs : trioCard e = some s) : charFree '£' s := by
  obtain ⟨h1, h2, h3⟩ := hc
  rw [hp] at h2
  simp only [trioCard, hp, hmba, Bool.false_eq_true, if_false] at hs
  replace hs := Option.some.inj hs
  subst hs
  apply char_notin_concatAll
  intro x hx
  fin_cases hx <;>
    first
    | decide
    | exact h1
    | exact h2
    | exact h3

theorem trioCard_noteFree {e : TrioEntry} {s : String}
    (hc : trioCleanNote e) (hs : trioCard e = some s) : charFree 'N' s := by
  obtain ⟨h1, h2, h3⟩ := hc
  cases hp : e.programme with
  | none => simp [trioCard, hp] at hs
  | some p =>
      rw [hp] at h2
      simp only [trioCard, hp] at hs
      replace hs := Option.some.inj hs
      subst hs
      apply char_notin_concatAll
      intro x hx
      fin_cases hx <;>
        first
        | decide
        | exact h1
        | exact h2
        | exact h3
        | (split <;> decide)

theorem rankedCard_poundFree {c : CourseEntry} {p : String} {r : List String}
    {s : String} (hp : c.programme = some p) (hr : c.chevening_rationale = some r)
    (hmba : jsIncludes (jsToLower p) "mba" = false)
    (hc : courseCleanPound c) (hs : rankedCard c = some s) : charFree '£' s := by
  obtain ⟨h1, h2, h3, h4, h5, h6, h7, h8, h9, h10, h11⟩ := hc
  rw [hp] at h3
  rw [hr] at h9
  simp only [trioCard, rankedCard, hp, hr, hmba, Bool.false_eq_true, if_false] at hs
  replace hs := Option.some.inj hs
  subst hs
  apply char_notin_concatAll
  intro x hx
  fin_cases hx <;>
    first
    | decide
    | exact h1
    | exact h2
    | exact h3
    | exact h4
    | exact h5
    | exact h6
    | exact h7
    | exact feeDisplay_poundFree h8
    | exact charFree_liItems (by decide) (by decide) h9
    | exact eligBadge_poundFree c.eligibility_check
    | exact eligReason_poundFree h10
    | exact scoreBlock_poundFree h11

/-- Claim C7 counterexample: "a course fragment never contains the MBA
advisory when the programme does not contain mba" fails, because the
renderer does not escape interpolated fields: a course whose `university`
field carries the advisory text renders a card that contains the advisory
even though its programme ("MSc Economics") does not contain "mba". -/
theorem C7_counterexample :
    jsIncludes (jsToLower "MSc Economics") "mba" = false ∧
    ∃ s, rankedCard courseInjected = some s ∧ strOccurs s mbaFeeCapWarning := by
  refine ⟨by decide, ?_⟩
  refine ⟨_, rfl, ?_⟩
  apply mem_concatAll_strOccurs
  simp [courseInjected, jsStr]

/-- Claim C7 amended: a ranked-course card and a trio card contain the
fixed MBA fee-cap advisory whenever the entry's programme contains "mba"
case-insensitively; and when the programme does not contain it, the card
does not contain the advisory *provided* the entry's interpolated fields
are injection-free (they avoid the advisory's marker character '£'). -/
theorem C7_amended_mba_advisory :
    (∀ (c : CourseEntry) (p : String) (r : List String) (s : String),
       c.programme = some p → c.chevening_rationale = some r →
       rankedCard c = some s →
       (jsIncludes (jsToLower p) "mba" = true → strOccurs s mbaFeeCapWarning) ∧
       (jsIncludes (jsToLower p) "mba" = false → courseCleanPound c →
          ¬ strOccurs s mbaFeeCapWarning)) ∧
    (∀ (e : TrioEntry) (p : String) (s : String),
       e.programme = some p → trioCard e = some s →
       (jsIncludes (jsToLower p) "mba" = true → strOccurs s mbaFeeCapWarning) ∧
       (jsIncludes (jsToLower p) "mba" = false → trioCleanPound e →
          ¬ strOccurs s mbaFeeCapWarning)) := by
  constructor
  · intro c p r s hp hr hs
    constructor
    · intro hmba
      simp only [rankedCard, hp, hr, hmba, if_true] at hs
      replace hs := Option.some.inj hs
      subst hs
      apply mem_concatAll_strOccurs
      simp
    · intro hmba hclean hocc
      exact not_strOccurs_of_char (by decide)
        (rankedCard_poundFree hp hr hmba hclean hs) hocc
  · intro e p s hp hs
    constructor
    · intro hmba
      simp only [trioCard, hp, hmba, if_true] at hs
      replace hs := Option.some.inj hs
      subst hs
      apply mem_concatAll_strOccurs
      simp
    · intro hmba hclean hocc
      exact not_strOccurs_of_char (by decide)
        (trioCard_poundFree hp hmba hclean hs) hocc

theorem C7_amended_mba_advisory_witness :
    (∃ s, rankedCard courseMba = some s ∧ strOccurs s mbaFeeCapWarning) ∧
    (∃ s, rankedCard courseEcon = some s ∧ ¬ strOccurs s mbaFeeCapWarning) := by
  constructor
  · refine ⟨_, rfl, ?_⟩
    exact (C7_amended_mba_advisory.1 courseMba "MBA" ["r"] _ rfl rfl rfl).1 (by decide)
  · refine ⟨_, rfl, ?_⟩
    exact (C7_amended_mba_advisory.1 courseEcon "MSc Economics" ["r"] _ rfl rfl rfl).2
      (by decide) (by decide)

theorem dedup_length_ne_one {α : Type} [DecidableEq α] {l : List α} {a b : α}
    (ha : a ∈ l) (hb : b ∈ l) (hne : a ≠ b) : ¬ l.dedup.length = 1 := by
  intro h
  rcases List.length_eq_one.1 h with ⟨x, hx⟩
  have h1 : a = x := by
    have := List.mem_dedup.2 ha
    rw [hx] at this
    simpa using this
  have h2 : b = x := by
    have := List.mem_dedup.2 hb
    rw [hx] at this
    simpa using this
  exact hne (h1.trans h2.symm)

/-- Claim C8 counterexample: "a trio with at least two distinct university
values never renders the diversification advisory" fails, because the
renderer does not escape interpolated fields: a mixed-university trio whose
first entry's `why_this_trio` field carries the advisory text renders a
fragment that contains the advisory. -/
theorem C8_counterexample :
    (∃ e1 ∈ trioInjectPair, ∃ e2 ∈ trioInjectPair,
       e1.university ≠ e2.university) ∧
    ∃ s, renderTrio trioInjectPair = some s ∧ strOccurs s trioDiversifyWarning := by
  constructor
  · exact ⟨trioInjEntry1, by simp [trioInjectPair], trioInjEntry2,
      by simp [trioInjectPair], by decide⟩
  · refine ⟨_, rfl, ?_⟩
    have hcard : strOccurs
        (concatAll ["<div class=\"trio-card\"> <h3>", "MSc X",
          "</h3> <p class=\"university\">", jsStr (some "A"),
          "</p> <p>", jsStr (some trioDiversifyWarning), "</p> ",
          (if jsIncludes (jsToLower "MSc X") "mba" then mbaFeeCapWarning else ""),
          " </div>"]) trioDiversifyWarning := by
      apply mem_concatAll_strOccurs
      simp [jsStr]
    refine strOccurs_trans hcard ?_
    apply strOccurs_append_left
    apply strOccurs_append_right
    apply mem_concatAll_strOccurs
    simp [renderCards, trioInjectPair, trioCard, trioInjEntry1, trioInjEntry2]

/-- Claim C8 amended: for an injection-free trio (fields avoid the
advisory's marker letter 'N'), the rendered trio fragment contains the
diversification advisory exactly once (unique decomposition) precisely when
all entries share one university and the trio has more than one entry; with
the condition false — in particular whenever two entries carry distinct
university values — the fragment does not contain the advisory at all. -/
theorem C8_amended_diversification_advisory (trio : List TrioEntry) (s : String)
    (hclean : ∀ e ∈ trio, trioCleanNote e) (hs : renderTrio trio = some s) :
    (((trio.map (fun course => course.university)).dedup.length = 1 ∧
        1 < trio.length) →
       ∃ U V, s.data = U ++ trioDiversifyWarning.data ++ V ∧
         'N' ∉ U ∧ 'N' ∉ V ∧
         ∀ U' V', s.data = U' ++ trioDiversifyWarning.data ++ V' →
           U' = U ∧ V' = V) ∧
    (¬ ((trio.map (fun course => course.university)).dedup.length = 1 ∧
        1 < trio.length) →
       ¬ strOccurs s trioDiversifyWarning) ∧
    (∀ e1 ∈ trio, ∀ e2 ∈ trio, e1.university ≠ e2.university →
       ¬ strOccurs s trioDiversifyWarning) := by
  cases hcards : renderCards trioCard trio with
  | none => simp [renderTrio, hcards] at hs
  | some cards =>
      have hsEq : s = trioHd ++ singleUniversityWarning trio ++ " "
          ++ concatAll cards ++ trioTl := by
        simp only [renderTrio, hcards] at hs
        exact (Option.some.inj hs).symm
      have hcardsN : 'N' ∉ (concatAll cards).data := by
        apply char_notin_concatAll
        intro x hx
        obtain ⟨e, he, hfe⟩ := renderCards_mem trioCard hcards x hx
        exact trioCard_noteFree (hclean e he) hfe
      have hNoWarnFree : singleUniversityWarning trio = "" → ¬ strOccurs s trioDiversifyWarning := by
        intro hwarn
        apply not_strOccurs_of_char (c := 'N') (by decide)
        rw [hsEq, hwarn]
        exact char_notin_append
          (char_notin_append
            (char_notin_append (char_notin_append (by decide) (by decide)) (by decide))
            hcardsN)
          (by decide)
      refine ⟨?_, ?_, ?_⟩
      · intro hcond
        have hwarn : singleUniversityWarning trio = trioDiversifyWarning := by
          rw [singleUniversityWarning, if_pos hcond]
        have hdata : s.data = trioHd.data ++ trioDiversifyWarning.data ++
            ((" " : String).data ++ ((concatAll cards).data ++ trioTl.data)) := by
          simp [hsEq, hwarn, String.data_append, List.append_assoc]
        refine ⟨trioHd.data,
          (" " : String).data ++ ((concatAll cards).data ++ trioTl.data),
          hdata, by decide, ?_, ?_⟩
        · intro hmem
          simp only [List.mem_append] at hmem
          rcases hmem with h | h | h
          · exact absurd h (by decide)
          · exact hcardsN h
          · exact absurd h (by decide)
        · intro U' V' h'
          refine unique_decomp (c := 'N') (by decide) (by decide) ?_
            (hdata.symm.trans h')
          intro hmem
          simp only [List.mem_append] at hmem
          rcases hmem with h | h | h
          · exact absurd h (by decide)
          · exact hcardsN h
          · exact absurd h (by decide)
      · intro hcond
        apply hNoWarnFree
        rw [singleUniversityWarning, if_neg hcond]
      · intro e1 h1 e2 h2 hne
        apply hNoWarnFree
        rw [singleUniversityWarning, if_neg]
        rintro ⟨hdedup, _⟩
        exact dedup_length_ne_one (List.mem_map_of_mem _ h1)
          (List.mem_map_of_mem _ h2) hne hdedup

theorem C8_amended_diversification_advisory_witness :
    ∃ s, renderTrio trioSameUni = some s ∧
      ∃ U V, s.data = U ++ trioDiversifyWarning.data ++ V ∧
        'N' ∉ U ∧ 'N' ∉ V ∧
        ∀ U' V', s.data = U' ++ trioDiversifyWarning.data ++ V' →
          U' = U ∧ V' = V := by
  refine ⟨_, rfl, ?_⟩
  refine (C8_amended_diversification_advisory trioSameUni _ ?_ rfl).1 (by decide)
  intro e he
  fin_cases he <;> decide

end Chevening
